import Mathlib

/-!
Verification of the skill-agent core in `src/_trial/agent_run_skill.ts`.

The development shallowly embeds the program: pure string processing is
translated to executable Lean functions over `List Char` / `String`;
external collaborators are explicit parameters:

* the JavaScript `JSON.parse` library routine is a parameter
  `jp : String → Option JsonValue` (`none` models a thrown parse error);
* the filesystem seen by `loadSkills` is a value of type
  `Option (List FsDir)` (`none` models a missing skills directory,
  per-file read outcomes are `Except`);
* the `fetch` network call in `callOpenAI` is a value of type
  `FetchOutcome` (either the call itself rejects, or it completes with a
  status, a text body and an optional parsed JSON body).

JavaScript-specific behaviours (truthiness, optional chaining, the
`String.prototype.replace` global-regex quote stripping, the
`/search\s+["']?([^"']+)["']?/` backtracking search) are modelled
explicitly and commented at their definition sites.
-/

/-- The backtick character (code 96), delimiter of inline code spans. -/
def backtickChar : Char := Char.ofNat 96

/-- A quote character in the sense of the regex `["']`: a double quote
(code 34) or a single quote (code 39). -/
def isQuote (c : Char) : Bool := c.toNat = 34 || c.toNat = 39

/-- Whitespace in the sense of JavaScript `trim` / `\s`, restricted to the
ASCII whitespace characters (space, tab, newline, carriage return,
vertical tab, form feed).  The documents and prompts of this program are
ASCII, so this is a faithful model. -/
def isSpaceJS (c : Char) : Bool :=
  c = ' ' || c = '\t' || c = '\n' || c = '\r' || c.toNat = 11 || c.toNat = 12

/-- JavaScript `String.prototype.trim`: drop whitespace from both ends. -/
def trimChars (cs : List Char) : List Char :=
  ((cs.dropWhile isSpaceJS).reverse.dropWhile isSpaceJS).reverse

/-- `trim` on strings. -/
def jsTrim (s : String) : String := String.mk (trimChars s.data)

/-- Does the first list start with the second? -/
def listStarts : List Char → List Char → Bool
  | _, [] => true
  | [], _ :: _ => false
  | c :: cs, p :: ps => c = p && listStarts cs ps

/-- JavaScript `String.prototype.startsWith`. -/
def jsStartsWith (s pat : String) : Bool := listStarts s.data pat.data

/-- JavaScript `String.prototype.endsWith`. -/
def jsEndsWith (s pat : String) : Bool := listStarts s.data.reverse pat.data.reverse

/-- JavaScript `String.prototype.includes`: substring occurrence. -/
def containsAt : List Char → List Char → Bool
  | [], pat => pat.isEmpty
  | c :: cs, pat => listStarts (c :: cs) pat || containsAt cs pat

/-- `includes` on strings. -/
def containsSub (s pat : String) : Bool := containsAt s.data pat.data

/-- JavaScript `String.prototype.toLowerCase` (ASCII model). -/
def jsToLower (s : String) : String := String.mk (s.data.map Char.toLower)

/-- JavaScript `String.prototype.indexOf` for a single character:
index of the first occurrence, `none` when absent. -/
def indexOfFrom : List Char → Char → Nat → Option Nat
  | [], _, _ => none
  | c :: cs, t, i => if c = t then some i else indexOfFrom cs t (i + 1)

/-- `indexOf` on strings (character indices; the sources are ASCII so
UTF-16 indices coincide with character indices). -/
def jsIndexOf (s : String) (t : Char) : Option Nat := indexOfFrom s.data t 0

/-- Split at the first occurrence of `sep`: `some (pre, post)` with
`s = pre ++ sep ++ post` and `sep` not occurring earlier.  Used to model
the non-greedy `([\s\S]*?)` of the frontmatter regex. -/
def splitFirstAux (sep : List Char) : List Char → Option (List Char × List Char)
  | [] => none
  | c :: rest =>
    if listStarts (c :: rest) sep then some ([], (c :: rest).drop sep.length)
    else
      match splitFirstAux sep rest with
      | some (pre, post) => some (c :: pre, post)
      | none => none

/-- JavaScript `String.prototype.split` at newline characters: keeps empty
segments, as `"a\n\nb".split("\n") = ["a", "", "b"]`. -/
def splitLines : List Char → List (List Char)
  | [] => [[]]
  | c :: rest =>
    if c = '\n' then [] :: splitLines rest
    else
      match splitLines rest with
      | [] => [[c]]
      | l :: ls => (c :: l) :: ls

/-! JSON values, as produced by the external `JSON.parse` library
routine, with their element lists and property lists as mutual inductives
so that all recursion over them is structural.  Numbers are modelled as
integers (no claim concerns fractional values).  `undefined` is not a
JSON value; where JavaScript property access can yield `undefined`, the
model uses `Option JsonValue` with `none` for `undefined`. -/
mutual
inductive JsonValue where
  | null : JsonValue
  | bool : Bool → JsonValue
  | num : Int → JsonValue
  | str : String → JsonValue
  | arr : JsonList → JsonValue
  | obj : JsonProps → JsonValue
inductive JsonList where
  | nil : JsonList
  | cons : JsonValue → JsonList → JsonList
inductive JsonProps where
  | nil : JsonProps
  | cons : String → JsonValue → JsonProps → JsonProps
end

/-- Property lookup on a JSON object (keys of parsed JSON are unique). -/
def lookupProp : JsonProps → String → Option JsonValue
  | .nil, _ => none
  | .cons k v rest, key => if k = key then some v else lookupProp rest key

/-- The typed metadata record of the `SkillMetadata` interface.  The
source assigns unrecognized frontmatter keys onto the same object through
`(metadata as unknown as Record<string, unknown>)[key] = ...`; those
dynamic properties are recorded in `extra` so the runtime object is
modelled faithfully. -/
structure SkillMetadata where
  name : String
  description : String
  homepage : String
  metadata : JsonValue
  extra : List (String × String)

/-- The initial metadata object built at the top of `parseFrontmatter`. -/
def emptyMetadata : SkillMetadata :=
  { name := "", description := "", homepage := "", metadata := .obj .nil, extra := [] }

/-- JavaScript property assignment `obj[key] = v` for string-valued
frontmatter fields: an existing property is overwritten in place, a new
one is appended in insertion order. -/
def setProp : List (String × String) → String → String → List (String × String)
  | [], k, v => [(k, v)]
  | (k0, v0) :: rest, k, v =>
    if k0 = k then (k0, v) :: rest else (k0, v0) :: setProp rest k v

/-- Strip a leading quote character if the list starts with one. -/
def stripLeadQuote : List Char → List Char
  | [] => []
  | c :: cs => if isQuote c then cs else c :: cs

/-- `value.replace(/^["']|["']$/g, '')` from line 57 of the source: the
global regex removes a leading quote character (if any) and a trailing
quote character (if any) independently — the two need not match, and a
quote on only one side is also removed.  When the whole value is a single
quote character, the leading alternative consumes it and nothing is left
for the trailing one. -/
def stripQuotes (v : String) : String :=
  String.mk ((stripLeadQuote ((stripLeadQuote v.data).reverse)).reverse)

/-- Dynamic assignment `(metadata as unknown as Record<string, unknown>)[key] = v`
(line 57): the three declared string fields are set when `key` names them,
any other key becomes a dynamic property of the object. -/
def assignField (m : SkillMetadata) (key v : String) : SkillMetadata :=
  if key = "name" then { m with name := v }
  else if key = "description" then { m with description := v }
  else if key = "homepage" then { m with homepage := v }
  else { m with extra := setProp m.extra key v }

/-- One iteration of the `forEach` over frontmatter lines (lines 44-61):
split the line at its first colon (which must not be at index 0), trim
key and value, skip the line unless both are nonempty, parse the value of
the `metadata` key as JSON (a failed parse is ignored), and assign every
other key through `assignField` after quote stripping. -/
def processLine (jp : String → Option JsonValue) (m : SkillMetadata) (line : String) :
    SkillMetadata :=
  match jsIndexOf line ':' with
  | none => m
  | some i =>
    if 0 < i then
      let key := jsTrim (String.mk (line.data.take i))
      let value := jsTrim (String.mk (line.data.drop (i + 1)))
      if key ≠ "" ∧ value ≠ "" then
        if key = "metadata" then
          match jp value with
          | some j => { m with metadata := j }
          | none => m
        else assignField m key (stripQuotes value)
      else m
    else m

/-- `parseFrontmatter` (lines 27-64).  The anchored regex
`^---\n([\s\S]*?)\n---\n([\s\S]*)$` succeeds exactly when the document
starts with the marker line and a later `\n---\n` occurs; the non-greedy
group takes the text up to the first such occurrence.  A missing match,
and also an empty front block (`!match[1]`), throw
`Invalid frontmatter format`. -/
def parseFrontmatter (jp : String → Option JsonValue) (content : String) :
    Except String (SkillMetadata × String) :=
  if listStarts content.data "---\n".data then
    match splitFirstAux "\n---\n".data (content.data.drop 4) with
    | none => .error "Invalid frontmatter format"
    | some (fm, body) =>
      if fm.isEmpty then .error "Invalid frontmatter format"
      else
        .ok ((splitLines fm).foldl (fun m l => processLine jp m (String.mk l)) emptyMetadata,
          String.mk body)
  else .error "Invalid frontmatter format"

/-- Scanner for the global regex `` /`([^`]+)`/g `` of `extractCommands`
(lines 66-82): the state is `none` outside a candidate span and
`some acc` after an opening backtick, with `acc` the span characters read
so far in reverse.  A backtick closing a nonempty span emits it; a
backtick met while the span is still empty restarts the span at that
backtick (the regex cannot match an empty span, so the engine retries
from the next position); an unclosed span at the end of input emits
nothing. -/
def scanSpans : List Char → Option (List Char) → List (List Char)
  | [], _ => []
  | c :: rest, none =>
    if c = backtickChar then scanSpans rest (some []) else scanSpans rest none
  | c :: rest, some acc =>
    if c = backtickChar then
      match acc with
      | [] => scanSpans rest (some [])
      | _ :: _ => acc.reverse :: scanSpans rest none
    else scanSpans rest (some (c :: acc))

/-- `extractCommands` (lines 66-82): every inline backtick span of the
body, trimmed, kept only when it starts with one of the two recognized
namespace prefixes; order preserved, duplicates kept. -/
def extractCommands (body : String) : List String :=
  (scanSpans body.data none).filterMap fun span =>
    let command := jsTrim (String.mk span)
    if jsStartsWith command "obsidian-cli" || jsStartsWith command "obsidian://" then
      some command
    else none

/-- The `Skill` record (lines 12-17). -/
structure Skill where
  path : String
  metadata : SkillMetadata
  content : String
  commands : List String

/-- The value of the `SKILLS_DIR` constant (line 25):
`join(relative(process.cwd(), '.'), 'src/_trial/skills')`, and
`relative(cwd, '.')` is the empty path. -/
def skillsDir : String := "src/_trial/skills"

/-- One file of a category directory, as `loadSkills` sees it: its name
and the outcome of `readFileSync` on it (`Except.error` models a thrown
read error). -/
structure FsFile where
  name : String
  content : Except String String

/-- One immediate subdirectory of the skills directory, with its listed
files in directory order. -/
structure FsDir where
  name : String
  files : List FsFile

/-- The body of the per-file `try` block of `loadSkills` (lines 102-115):
read the file, parse the frontmatter, extract the commands, and build the
`Skill`; `none` models reaching the `catch`, which logs and continues
with the next file. -/
def loadSkillFile (jp : String → Option JsonValue) (categoryName : String) (file : FsFile) :
    Option Skill :=
  match file.content with
  | .error _ => none
  | .ok content =>
    match parseFrontmatter jp content with
    | .error _ => none
    | .ok (metadata, body) =>
      some { path := skillsDir ++ "/" ++ categoryName ++ "/" ++ file.name,
             metadata := metadata, content := body, commands := extractCommands body }

/-- `loadSkills` (lines 84-120) over the modelled filesystem: a missing
skills directory yields the empty catalog; otherwise every category is
scanned in order, its `.md` files are filtered, and each file that loads
contributes one `Skill` while a failing file is skipped. -/
def loadSkills (jp : String → Option JsonValue) (fs : Option (List FsDir)) : List Skill :=
  match fs with
  | none => []
  | some categories =>
    categories.flatMap fun cat =>
      (cat.files.filter fun f => jsEndsWith f.name ".md").filterMap (loadSkillFile jp cat.name)

/-- The `AgentResponse` interface (lines 19-23), called Resolution in the
design document: the record that `mockAgentResponse` constructs. -/
structure AgentResponse where
  skillName : String
  command : String
  reasoning : String
deriving DecidableEq

/-- The core `["']?([^"']+)["']?` of the search regex, tried at a fixed
position: an optional opening quote, then a nonempty greedy run of
non-quote characters (the captured group), then an optional closing
quote.  When the position holds a quote but the character after it is
another quote or the end of input, both alternatives for the optional
quote fail and the whole attempt at this position fails. -/
def tryCore (cs : List Char) : Option (List Char) :=
  match cs with
  | [] => none
  | c :: rest =>
    if isQuote c then
      let g := rest.takeWhile fun x => !isQuote x
      if g.isEmpty then none else some g
    else some ((c :: rest).takeWhile fun x => !isQuote x)

/-- Backtracking over the greedy `\s+` of the search regex: the maximal
whitespace run is consumed first; on failure of the core the last
consumed whitespace character is given back (it then becomes part of the
captured group), never going below one consumed character.  `wsRev` holds
the still-consumed whitespace in reverse. -/
def wsBacktrack : List Char → List Char → Option (List Char)
  | wsRev, rest =>
    match tryCore rest with
    | some g => some g
    | none =>
      match wsRev with
      | [] => none
      | [_] => none
      | c :: wsRev2 => wsBacktrack wsRev2 (c :: rest)

/-- Matching of `\s+["']?([^"']+)["']?` directly after an occurrence of
the literal `search`. -/
def afterSearch (cs : List Char) : Option (List Char) :=
  let ws := cs.takeWhile isSpaceJS
  if ws.isEmpty then none
  else wsBacktrack ws.reverse (cs.drop ws.length)

/-- Leftmost-match scan of `promptLower.match(/search\s+["']?([^"']+)["']?/)`
(line 190): the first position where the whole pattern matches wins, and
the captured group is returned. -/
def searchScan : List Char → Option (List Char)
  | [] => none
  | c :: rest =>
    if listStarts (c :: rest) "search".data then
      match afterSearch ((c :: rest).drop 6) with
      | some g => some g
      | none => searchScan rest
    else searchScan rest

/-- Command selection inside the matched obsidian skill (lines 185-195):
a create/new intent beats a search intent beats a default/path intent;
the search intent splices the captured group of the search regex (or the
placeholder `query`) into the command template. -/
def obsidianCommand (promptLower : String) : String :=
  if containsSub promptLower "create" || containsSub promptLower "new" then
    "obsidian-cli create \x22Folder/New note\x22 --open"
  else if containsSub promptLower "search" then
    let searchQuery :=
      match searchScan promptLower.data with
      | some g => String.mk g
      | none => "query"
    "obsidian-cli search \x22" ++ searchQuery ++ "\x22"
  else if containsSub promptLower "default" || containsSub promptLower "path" then
    "obsidian-cli print-default --path-only"
  else "obsidian-cli search \x22query\x22"

/-- The `for` loop of `mockAgentResponse` (lines 180-204): the prompt
trigger (`obsidian`/`note`/`vault`) does not depend on the skill, so the
loop returns at the first skill named `obsidian` when the trigger holds
and otherwise falls through.  The `skillContent` string computed from the
description and body on line 181 is never read — it is kept here as an
unused binding, exactly as in the source. -/
def mockLoop (promptLower : String) : List Skill → Option AgentResponse
  | [] => none
  | skill :: rest =>
    let _skillContent := jsToLower (skill.metadata.description ++ " " ++ skill.content)
    if containsSub promptLower "obsidian" || containsSub promptLower "note" ||
        containsSub promptLower "vault" then
      if skill.metadata.name = "obsidian" then
        let command := obsidianCommand promptLower
        some { skillName := skill.metadata.name,
               command := command,
               reasoning := "Selected \x27obsidian\x27 skill because user mentioned " ++
                 "Obsidian/vault/notes. Command \x27" ++ command ++
                 "\x27 best matches the request." }
      else mockLoop promptLower rest
    else mockLoop promptLower rest

/-- The default return of `mockAgentResponse` (lines 206-210): the first
skill's name and first command, with JavaScript truthiness — an absent
first skill, an empty name or an absent/empty first command fall back to
the literal defaults. -/
def defaultResponse (skills : List Skill) : AgentResponse :=
  { skillName :=
      match skills.head? with
      | some sk => if sk.metadata.name ≠ "" then sk.metadata.name else "unknown"
      | none => "unknown",
    command :=
      match skills.head? with
      | some sk =>
        match sk.commands.head? with
        | some c => if c ≠ "" then c else "echo \x22No command found\x22"
        | none => "echo \x22No command found\x22"
      | none => "echo \x22No command found\x22",
    reasoning := "Default fallback: no specific skill matched" }

/-- `mockAgentResponse` (lines 177-211), the rule-based fallback matcher:
lower-case the prompt, run the skill loop, and fall back to the default
resolution. -/
def mockAgentResponse (userPrompt : String) (skills : List Skill) : AgentResponse :=
  match mockLoop (jsToLower userPrompt) skills with
  | some r => r
  | none => defaultResponse skills

/-- A concrete obsidian skill for ground evaluations. -/
def obsSkill : Skill :=
  { path := "src/_trial/skills/notes/obsidian.md",
    metadata := { name := "obsidian", description := "Obsidian notes", homepage := "",
                  metadata := .obj .nil, extra := [] },
    content := "Use `obsidian-cli search \x22query\x22` to search.",
    commands := ["obsidian-cli search \x22query\x22"] }

/-- Outcome of the `fetch` call of `callOpenAI` (lines 144-158):
`unreachable` models the promise rejecting (network-level failure, not
caught anywhere in `callOpenAI`); `response` models a completed HTTP
exchange with its status code, its text body (read by `response.text()`
on the error path) and its JSON body (`none` models `response.json()`
throwing because the body is not JSON). -/
inductive FetchOutcome where
  | unreachable : FetchOutcome
  | response : Nat → String → Option JsonValue → FetchOutcome

/-- `Response.ok` of the Fetch standard: status in the range 200-299. -/
def responseOk (status : Nat) : Bool := 200 ≤ status && status ≤ 299

/-- The value returned by `callOpenAI`: its TypeScript type is
`AgentResponse`, but only the mock path builds such a record; the reply
path returns the raw `JSON.parse` result under an unchecked `as` cast,
whatever its shape.  The two constructors record which path produced the
value. -/
inductive CallResult where
  | typed : AgentResponse → CallResult
  | untyped : JsonValue → CallResult

/-- The expression `data.choices[0]?.message?.content` (line 168) with
JavaScript semantics: reading `choices` of `null` throws, indexing
`undefined` or `null` throws, and from `?.` onwards the chain
short-circuits to `undefined` (`none`) instead of throwing.  Property
access on a non-object yields `undefined`; indexing an array yields its
head; indexing an object reads its `"0"` property; indexing a string
yields its first character. -/
def extractContent (data : JsonValue) : Except String (Option JsonValue) :=
  match data with
  | .null => .error "TypeError: cannot read choices of null"
  | _ =>
    let choices : Option JsonValue :=
      match data with
      | .obj fields => lookupProp fields "choices"
      | _ => none
    match choices with
    | none => .error "TypeError: cannot index undefined"
    | some .null => .error "TypeError: cannot index null"
    | some v =>
      let elem0 : Option JsonValue :=
        match v with
        | .arr (.cons x _) => some x
        | .arr .nil => none
        | .obj fields => lookupProp fields "0"
        | .str s =>
          match s.data with
          | c :: _ => some (.str (String.mk [c]))
          | [] => none
        | _ => none
      let msg : Option JsonValue :=
        match elem0 with
        | some (.obj fields) => lookupProp fields "message"
        | _ => none
      let content : Option JsonValue :=
        match msg with
        | some (.obj fields) => lookupProp fields "content"
        | _ => none
      .ok content

/-- JavaScript falsiness of the chain result: `undefined`, `null`,
`false`, `0` and the empty string select the `'{}'` default in
`content || '{}'`. -/
def jsFalsy : Option JsonValue → Bool
  | none => true
  | some .null => true
  | some (.bool b) => !b
  | some (.num n) => n = 0
  | some (.str s) => s = ""
  | some _ => false

/-! String conversion applied by `JSON.parse` to a non-string argument.
Arrays join their elements with commas (`null` elements become empty, as
in `Array.prototype.toString`); plain objects become `[object Object]`. -/
mutual
def jsToString : JsonValue → String
  | .str s => s
  | .num n => toString n
  | .bool b => if b then "true" else "false"
  | .null => ""
  | .obj _ => "[object Object]"
  | .arr xs => jsListToString xs
def jsListToString : JsonList → String
  | .nil => ""
  | .cons v .nil => jsToString v
  | .cons v (.cons w l) => jsToString v ++ "," ++ jsListToString (.cons w l)
end

/-- The argument handed to `JSON.parse` on line 171: the chain result
defaulted to `'{}'` when falsy, converted to a string. -/
def contentText (contentOpt : Option JsonValue) : String :=
  match contentOpt with
  | none => "\x7b\x7d"
  | some v => if jsFalsy (some v) then "\x7b\x7d" else jsToString v

/-- `callOpenAI` (lines 122-175) over the modelled `fetch` outcome.  The
request construction (lines 123-158) only feeds the external call and is
absorbed into the `FetchOutcome` parameter.  A rejecting `fetch` and a
failing `response.json()` propagate (no `try` encloses them); a
non-success status returns the fallback matcher's result; on a success
status the message content is extracted (propagating its `TypeError`s),
and `JSON.parse` of it either yields a value returned verbatim under the
cast, or throws, which the `catch` turns into the fallback matcher's
result. -/
def callOpenAI (jp : String → Option JsonValue) (prompt : String) (skills : List Skill) :
    FetchOutcome → Except String CallResult
  | .unreachable => .error "fetch rejected: network unreachable"
  | .response status _bodyText bodyJson =>
    if responseOk status then
      match bodyJson with
      | none => .error "response.json() rejected: body is not JSON"
      | some data =>
        match extractContent data with
        | .error e => .error e
        | .ok contentOpt =>
          match jp (contentText contentOpt) with
          | some j => .ok (.untyped j)
          | none => .ok (.typed (mockAgentResponse prompt skills))
    else .ok (.typed (mockAgentResponse prompt skills))

/-- A concrete instantiation of the external JSON library that fails on
every input. -/
def jpNone : String → Option JsonValue := fun _ => none

/-- A concrete instantiation of the external JSON library that parses the
text `{}` to the empty object and fails on everything else. -/
def jpBrace : String → Option JsonValue :=
  fun s => if s = "\x7b\x7d" then some (.obj .nil) else none

/-- A success body of the OpenAI wire shape whose message content is the
text `{}`: valid JSON, but not Resolution-shaped. -/
def braceContentBody : JsonValue :=
  .obj (.cons "choices"
    (.arr (.cons
      (.obj (.cons "message"
        (.obj (.cons "content" (.str "\x7b\x7d") .nil)) .nil))
      .nil))
    .nil)

/-- The `reasoning` property of a `callOpenAI` result as the caller reads
it (`response.reasoning` on line 258): present on every mock-path record,
and on a reply-path object only if the parsed JSON has that key. -/
def reasoningObs : CallResult → Option JsonValue
  | .typed r => some (.str r.reasoning)
  | .untyped (.obj fields) => lookupProp fields "reasoning"
  | .untyped _ => none

/-- The key that a frontmatter line assigns, if any: the line has a colon
after at least one character, and key and value are nonempty after
trimming.  Mirrors the guards of `processLine`. -/
def lineAssignKey (line : String) : Option String :=
  match jsIndexOf line ':' with
  | none => none
  | some i =>
    if 0 < i then
      let key := jsTrim (String.mk (line.data.take i))
      let value := jsTrim (String.mk (line.data.drop (i + 1)))
      if key ≠ "" ∧ value ≠ "" then some key else none
    else none

/-- A skill agreeing with `obsSkill` on name and commands but with a
different description and body. -/
def obsSkillAlt : Skill :=
  { path := "src/_trial/skills/other/obsidian.md",
    metadata := { name := "obsidian", description := "A different description", homepage := "x",
                  metadata := .obj .nil, extra := [("seen", "yes")] },
    content := "Completely different body text.",
    commands := ["obsidian-cli search \x22query\x22"] }

/-! ### Ground evaluations of the embedded operations -/

example :
    (parseFrontmatter (fun _ => none) "---\nname: obsidian\n---\nbody").map
      (fun r => r.1.name) = .ok "obsidian" := rfl

example :
    (parseFrontmatter (fun _ => none) "no frontmatter") = .error "Invalid frontmatter format" := rfl

example : stripQuotes "\x22abc\x27" = "abc" := by decide

example : stripQuotes "\x22abc" = "abc" := by decide

example : stripQuotes "\x22" = "" := by decide

example : stripQuotes "a\x22b" = "a\x22b" := by decide

example :
    extractCommands "Run `obsidian-cli search \x22query\x22` or `echo hi` now." =
      ["obsidian-cli search \x22query\x22"] := by decide

example : extractCommands "open `obsidian://vault` twice: `obsidian://vault`" =
    ["obsidian://vault", "obsidian://vault"] := by decide

example :
    (loadSkills (fun _ => none)
        (some [⟨"notes", [⟨"obsidian.md", .ok "---\nname: obsidian\n---\n`obsidian-cli x`"⟩,
                          ⟨"bad.md", .ok "no front block"⟩,
                          ⟨"ignored.txt", .ok "---\nname: t\n---\n"⟩]⟩])).map Skill.commands =
      [["obsidian-cli x"]] := rfl

example : searchScan "search for \x22project\x22 in obsidian".data = some "for ".data := by
  decide

example : searchScan "obsidian search \x22hello\x22".data = some "hello".data := by decide

example : searchScan "search".data = none := by decide

example : searchScan "search \x22\x22".data = none := by decide

example : searchScan "search  \x22\x22".data = some " ".data := by decide

example :
    (mockAgentResponse "Search for \x22project\x22 in Obsidian" [obsSkill]).command =
      "obsidian-cli search \x22for \x22" := by decide

example :
    (mockAgentResponse "Create a new note called \x22Daily Log\x22 in Obsidian"
        [obsSkill]).command = "obsidian-cli create \x22Folder/New note\x22 --open" := by decide

example :
    (mockAgentResponse "What is the default Obsidian vault path?" [obsSkill]).command =
      "obsidian-cli print-default --path-only" := by decide

example : mockAgentResponse "hello" [obsSkill] = defaultResponse [obsSkill] := by decide

example :
    callOpenAI jpBrace "hi" [] (.response 200 "" (some braceContentBody)) =
      .ok (.untyped (.obj .nil)) := rfl

example :
    callOpenAI jpNone "hi" [obsSkill] (.response 500 "Internal Server Error" none) =
      .ok (.typed (mockAgentResponse "hi" [obsSkill])) := rfl

example :
    callOpenAI jpNone "hi" [obsSkill] .unreachable =
      .error "fetch rejected: network unreachable" := rfl

example :
    callOpenAI jpNone "hi" [] (.response 200 "" (some (.obj .nil))) =
      .error "TypeError: cannot index undefined" := rfl

/-! ### General lemmas about the embedded operations -/

lemma dropWhile_dropWhile {α : Type} (p : α → Bool) (l : List α) :
    (l.dropWhile p).dropWhile p = l.dropWhile p := by
  induction l with
  | nil => rfl
  | cons a l ih =>
    by_cases h : p a
    · simp [List.dropWhile_cons, h, ih]
    · simp [List.dropWhile_cons, h]

lemma head_dropWhile_not {α : Type} (p : α → Bool) :
    ∀ (l : List α) (d : α) (t : List α), l.dropWhile p = d :: t → p d = false := by
  intro l
  induction l with
  | nil => intro d t h; simp [List.dropWhile] at h
  | cons a l ih =>
    intro d t h
    by_cases hp : p a
    · rw [List.dropWhile_cons, if_pos hp] at h
      exact ih d t h
    · rw [List.dropWhile_cons, if_neg hp] at h
      injection h with h1 _
      subst h1
      simpa using hp

lemma dropWhile_append_last {α : Type} (p : α → Bool) (d : α) (hd : p d = false) :
    ∀ A : List α, ∃ C, (A ++ [d]).dropWhile p = C ++ [d] := by
  intro A
  induction A with
  | nil => exact ⟨[], by simp [List.dropWhile_cons, hd]⟩
  | cons a A ih =>
    by_cases hp : p a
    · obtain ⟨C, hC⟩ := ih
      refine ⟨C, ?_⟩
      rw [List.cons_append, List.dropWhile_cons, if_pos hp]
      exact hC
    · exact ⟨a :: A, by rw [List.cons_append, List.dropWhile_cons, if_neg hp]⟩

lemma trimChars_idem (cs : List Char) : trimChars (trimChars cs) = trimChars cs := by
  unfold trimChars
  cases hD : cs.dropWhile isSpaceJS with
  | nil => simp
  | cons d D' =>
    have hd : isSpaceJS d = false := head_dropWhile_not isSpaceJS cs d D' hD
    obtain ⟨C, hC⟩ := dropWhile_append_last isSpaceJS d hd D'.reverse
    have hCC : (C ++ [d]).dropWhile isSpaceJS = C ++ [d] := by
      have h2 := dropWhile_dropWhile isSpaceJS (D'.reverse ++ [d])
      rw [hC] at h2
      exact h2
    rw [List.reverse_cons, hC, List.reverse_append, List.reverse_cons, List.reverse_nil,
      List.nil_append, List.singleton_append, List.dropWhile_cons, if_neg (by simp [hd]),
      List.reverse_cons, List.reverse_reverse, hCC]
    simp

lemma jsTrim_idem (s : String) : jsTrim (jsTrim s) = jsTrim s :=
  congrArg String.mk (trimChars_idem s.data)

lemma extractCommands_mem (body : String) (c : String) (h : c ∈ extractCommands body) :
    jsTrim c = c ∧
      (jsStartsWith c "obsidian-cli" = true ∨ jsStartsWith c "obsidian://" = true) := by
  unfold extractCommands at h
  obtain ⟨span, _, hf⟩ := List.mem_filterMap.mp h
  simp only at hf
  split at hf
  case isTrue hcond =>
    injection hf with hf
    subst hf
    exact ⟨jsTrim_idem _, Bool.or_eq_true _ _ |>.mp hcond⟩
  case isFalse => exact absurd hf (by simp)

lemma loadSkills_mem_commands (jp : String → Option JsonValue) (fs : Option (List FsDir))
    (sk : Skill) (h : sk ∈ loadSkills jp fs) : sk.commands = extractCommands sk.content := by
  unfold loadSkills at h
  cases fs with
  | none => simp at h
  | some cats =>
    obtain ⟨cat, _, hsk⟩ := List.mem_flatMap.mp h
    obtain ⟨file, _, hload⟩ := List.mem_filterMap.mp hsk
    unfold loadSkillFile at hload
    split at hload
    · exact absurd hload (by simp)
    · split at hload
      · exact absurd hload (by simp)
      · injection hload with hload
        subst hload
        rfl

lemma setProp_key_mem (k v : String) :
    ∀ e : List (String × String), k ∈ (setProp e k v).map Prod.fst := by
  intro e
  induction e with
  | nil => simp [setProp]
  | cons kv e ih =>
    by_cases hk : kv.1 = k
    · simp [setProp, hk]
    · simpa [setProp, hk] using Or.inr ih

/-! ### Claim theorems -/

/-- C2: every string of the sequence produced by `extractCommands` — and
every string carried into the `commands` of a `Skill` built by
`loadSkills` — is trimmed and starts with one of the two recognized
namespace prefixes (the CLI tool name `obsidian-cli` or the URI scheme
`obsidian://`); an inline backtick span failing the prefix test never
appears. -/
theorem commands_satisfy_allowlist :
    (∀ (body : String), ∀ c ∈ extractCommands body,
      jsTrim c = c ∧
        (jsStartsWith c "obsidian-cli" = true ∨ jsStartsWith c "obsidian://" = true))
    ∧ ∀ (jp : String → Option JsonValue) (fs : Option (List FsDir)),
        ∀ sk ∈ loadSkills jp fs, ∀ c ∈ sk.commands,
          jsTrim c = c ∧
            (jsStartsWith c "obsidian-cli" = true ∨ jsStartsWith c "obsidian://" = true) := by
  refine ⟨fun body c hc => extractCommands_mem body c hc, ?_⟩
  intro jp fs sk hsk c hc
  rw [loadSkills_mem_commands jp fs sk hsk] at hc
  exact extractCommands_mem _ c hc

/-- Witness for C2 on a concrete document body holding one allowed and
one filtered span. -/
theorem commands_satisfy_allowlist_witness :
    ("obsidian-cli x" ∈ extractCommands "Run `obsidian-cli x` or `echo hi`.")
    ∧ jsTrim "obsidian-cli x" = "obsidian-cli x"
    ∧ (jsStartsWith "obsidian-cli x" "obsidian-cli" = true ∨
        jsStartsWith "obsidian-cli x" "obsidian://" = true) := by
  refine ⟨by decide, ?_⟩
  have h := commands_satisfy_allowlist.1 "Run `obsidian-cli x` or `echo hi`."
    "obsidian-cli x" (by decide)
  exact ⟨h.1, h.2⟩

/-- C4: whenever the external reasoning call completes with a non-success
HTTP status, `callOpenAI` returns exactly the Resolution that the
fallback matcher `mockAgentResponse` produces standalone on the same
prompt and catalog. -/
theorem non_success_status_falls_back :
    ∀ (jp : String → Option JsonValue) (prompt : String) (skills : List Skill) (status : Nat)
      (bodyText : String) (bodyJson : Option JsonValue),
      responseOk status = false →
      callOpenAI jp prompt skills (.response status bodyText bodyJson) =
        .ok (.typed (mockAgentResponse prompt skills)) := by
  intro jp prompt skills status bodyText bodyJson h
  simp [callOpenAI, h]

/-- Witness for C4 at status 500. -/
theorem non_success_status_falls_back_witness :
    responseOk 500 = false ∧
      callOpenAI jpNone "Search my notes" [obsSkill]
          (.response 500 "Internal Server Error" none) =
        .ok (.typed (mockAgentResponse "Search my notes" [obsSkill])) :=
  ⟨rfl, non_success_status_falls_back jpNone "Search my notes" [obsSkill] 500
    "Internal Server Error" none rfl⟩

/-- C6: catalog loading is failure-tolerant — a missing root directory
yields the empty catalog rather than an error, and every listed `.md`
file that reads and parses successfully contributes its `Skill` to the
result no matter what other files of the catalog do, so one bad document
never aborts the load. -/
theorem catalog_load_failure_tolerant :
    (∀ jp : String → Option JsonValue, loadSkills jp none = [])
    ∧ ∀ (jp : String → Option JsonValue) (cats : List FsDir) (cat : FsDir) (file : FsFile)
        (content : String) (md : SkillMetadata) (body : String),
        cat ∈ cats → file ∈ cat.files → jsEndsWith file.name ".md" = true →
        file.content = .ok content → parseFrontmatter jp content = .ok (md, body) →
        ({ path := skillsDir ++ "/" ++ cat.name ++ "/" ++ file.name, metadata := md,
           content := body, commands := extractCommands body } : Skill) ∈
          loadSkills jp (some cats) := by
  refine ⟨fun _ => rfl, ?_⟩
  intro jp cats cat file content md body hcat hfile hmd hcontent hparse
  unfold loadSkills
  refine List.mem_flatMap.mpr ⟨cat, hcat, ?_⟩
  refine List.mem_filterMap.mpr ⟨file, List.mem_filter.mpr ⟨hfile, hmd⟩, ?_⟩
  simp [loadSkillFile, hcontent, hparse]

/-- Witness for C6: a catalog with one loadable document, one malformed
document and one non-`.md` file still yields the loadable skill. -/
theorem catalog_load_failure_tolerant_witness :
    (⟨"obsidian.md", .ok "---\nname: obsidian\n---\n`obsidian-cli x`"⟩ : FsFile) ∈
        (⟨"notes", [⟨"obsidian.md", .ok "---\nname: obsidian\n---\n`obsidian-cli x`"⟩,
                    ⟨"bad.md", .ok "no front block"⟩]⟩ : FsDir).files
    ∧ ({ path := skillsDir ++ "/" ++ "notes" ++ "/" ++ "obsidian.md",
         metadata := { name := "obsidian", description := "", homepage := "",
                       metadata := .obj .nil, extra := [] },
         content := "`obsidian-cli x`", commands := extractCommands "`obsidian-cli x`" } :
           Skill) ∈
        loadSkills jpNone
          (some [⟨"notes", [⟨"obsidian.md", .ok "---\nname: obsidian\n---\n`obsidian-cli x`"⟩,
                            ⟨"bad.md", .ok "no front block"⟩]⟩]) := by
  refine ⟨List.mem_cons_self _ _, ?_⟩
  exact catalog_load_failure_tolerant.2 jpNone _ _
    ⟨"obsidian.md", .ok "---\nname: obsidian\n---\n`obsidian-cli x`"⟩
    "---\nname: obsidian\n---\n`obsidian-cli x`" _ "`obsidian-cli x`"
    (List.mem_singleton.mpr rfl) (List.mem_cons_self _ _) rfl rfl rfl

/-- C1 (corrected), counterexample: when the network call itself fails
(the `fetch` promise rejects), `resolve` does not route to the fallback
matcher — the error propagates to the caller, so the operation does not
always return a Resolution. -/
theorem resolve_error_when_unreachable :
    callOpenAI jpNone "Search my notes" [obsSkill] .unreachable =
      .error "fetch rejected: network unreachable"
    ∧ (Except.error "fetch rejected: network unreachable" : Except String CallResult) ≠
        .ok (.typed (mockAgentResponse "Search my notes" [obsSkill])) :=
  ⟨rfl, fun h => Except.noConfusion h⟩

/-- C1 (amended): `resolve` returns a Resolution whenever the HTTP
exchange completes and either the status is non-success or the success
body is JSON whose `choices[0]?.message?.content` chain evaluates without
a `TypeError`; a success body that is not JSON propagates the
`response.json()` error instead (and a rejecting `fetch` propagates, per
the counterexample). -/
theorem resolve_total_when_http_completes :
    ∀ (jp : String → Option JsonValue) (prompt : String) (skills : List Skill) (status : Nat)
      (bodyText : String) (bodyJson : Option JsonValue),
      ((responseOk status = false ∨
          ∃ data contentOpt, bodyJson = some data ∧ extractContent data = .ok contentOpt) →
        ∃ r, callOpenAI jp prompt skills (.response status bodyText bodyJson) = .ok r)
      ∧ (responseOk status = true → bodyJson = none →
          ∃ e, callOpenAI jp prompt skills (.response status bodyText bodyJson) = .error e) := by
  intro jp prompt skills status bodyText bodyJson
  constructor
  · intro h
    rcases h with h | ⟨data, contentOpt, hbj, hec⟩
    · exact ⟨.typed (mockAgentResponse prompt skills), by simp [callOpenAI, h]⟩
    · subst hbj
      by_cases hok : responseOk status
      · cases hjp : jp (contentText contentOpt) with
        | some j => exact ⟨.untyped j, by simp [callOpenAI, hok, hec, hjp]⟩
        | none =>
          exact ⟨.typed (mockAgentResponse prompt skills), by simp [callOpenAI, hok, hec, hjp]⟩
      · exact ⟨.typed (mockAgentResponse prompt skills),
          by simp [callOpenAI, Bool.not_eq_true _ ▸ hok]⟩
  · intro hok hbj
    subst hbj
    exact ⟨"response.json() rejected: body is not JSON", by simp [callOpenAI, hok]⟩

/-- Witness for C1 (amended) at a 500 status and at a success status with
a non-JSON body. -/
theorem resolve_total_when_http_completes_witness :
    (responseOk 500 = false ∧
      ∃ r, callOpenAI jpNone "hello" [] (.response 500 "oops" none) = .ok r)
    ∧ (responseOk 200 = true ∧
      ∃ e, callOpenAI jpNone "hello" [] (.response 200 "" none) = .error e) :=
  ⟨⟨rfl, (resolve_total_when_http_completes jpNone "hello" [] 500 "oops" none).1
      (Or.inl rfl)⟩,
   ⟨rfl, (resolve_total_when_http_completes jpNone "hello" [] 200 "" none).2 rfl rfl⟩⟩

/-- C5 (corrected), counterexample: a success response whose message
content is the JSON text `{}` — valid JSON, but not Resolution-shaped —
is returned verbatim under the unchecked cast instead of being replaced
by the fallback matcher's result: the returned value carries no
`reasoning` property at all, while the fallback's result does. -/
theorem misshaped_reply_returned_verbatim :
    callOpenAI jpBrace "hello" [] (.response 200 "" (some braceContentBody)) =
      .ok (.untyped (.obj .nil))
    ∧ mockAgentResponse "hello" [] =
        { skillName := "unknown", command := "echo \x22No command found\x22",
          reasoning := "Default fallback: no specific skill matched" }
    ∧ reasoningObs (.untyped (.obj .nil)) = none
    ∧ reasoningObs (.typed (mockAgentResponse "hello" [])) =
        some (.str "Default fallback: no specific skill matched")
    ∧ (none : Option JsonValue) ≠ some (.str "Default fallback: no specific skill matched") :=
  ⟨rfl, rfl, rfl, rfl, fun h => Option.noConfusion h⟩

/-- C5 (amended): on a success status whose body is JSON and whose
content chain evaluates, `resolve` falls back exactly when `JSON.parse`
of the extracted content string fails; a content string that parses as
any JSON value — Resolution-shaped or not — is returned verbatim. -/
theorem reply_used_iff_content_parses :
    ∀ (jp : String → Option JsonValue) (prompt : String) (skills : List Skill) (status : Nat)
      (bodyText : String) (data : JsonValue) (contentOpt : Option JsonValue),
      responseOk status = true → extractContent data = .ok contentOpt →
      callOpenAI jp prompt skills (.response status bodyText (some data)) =
        match jp (contentText contentOpt) with
        | some j => .ok (.untyped j)
        | none => .ok (.typed (mockAgentResponse prompt skills)) := by
  intro jp prompt skills status bodyText data contentOpt hok hec
  simp only [callOpenAI, hok, if_true, hec]

/-- Witness for C5 (amended): with a JSON library that fails on the
extracted content, the fallback result is returned. -/
theorem reply_used_iff_content_parses_witness :
    responseOk 200 = true
    ∧ extractContent braceContentBody = .ok (some (.str "\x7b\x7d"))
    ∧ callOpenAI jpNone "hello" [] (.response 200 "" (some braceContentBody)) =
        .ok (.typed (mockAgentResponse "hello" [])) :=
  ⟨rfl, rfl,
    reply_used_iff_content_parses jpNone "hello" [] 200 "" braceContentBody
      (some (.str "\x7b\x7d")) rfl rfl⟩

/-- C3 (code bug): on the prompt `Search for "project" in Obsidian` with
the obsidian skill in the catalog, the fallback matcher does select the
skill `obsidian`, but the search regex captures the text between `search`
and the opening quote, so the synthesized command is
`obsidian-cli search "for "`, not `obsidian-cli search "project"`. -/
theorem search_project_prompt_actual_command :
    mockAgentResponse "Search for \x22project\x22 in Obsidian" [obsSkill] =
      { skillName := "obsidian",
        command := "obsidian-cli search \x22for \x22",
        reasoning := "Selected \x27obsidian\x27 skill because user mentioned " ++
          "Obsidian/vault/notes. Command \x27obsidian-cli search \x22for \x22\x27 " ++
          "best matches the request." }
    ∧ ("obsidian-cli search \x22for \x22" : String) ≠ "obsidian-cli search \x22project\x22" :=
  ⟨by decide, by decide⟩

/-- C7 (corrected), counterexample: the search term spliced into the
command is extracted from the lower-cased prompt, so the original casing
of the user's quoted term is not preserved — the prompt says `HELLO`, the
command says `hello`. -/
theorem spliced_term_lowercased :
    (mockAgentResponse "Obsidian search \x22HELLO\x22" [obsSkill]).command =
      "obsidian-cli search \x22hello\x22"
    ∧ containsSub "Obsidian search \x22HELLO\x22" "HELLO" = true
    ∧ containsSub "obsidian-cli search \x22hello\x22" "HELLO" = false :=
  ⟨by decide, by decide, by decide⟩

/-- C7 (amended): the fallback matcher consults nothing but the
lower-cased prompt (and the catalog) — two prompts equal after
lower-casing yield the same Resolution, so extracted sub-arguments are
lower-cased rather than preserving original casing. -/
theorem fallback_sees_only_lowered_prompt :
    ∀ (p1 p2 : String) (skills : List Skill), jsToLower p1 = jsToLower p2 →
      mockAgentResponse p1 skills = mockAgentResponse p2 skills := by
  intro p1 p2 skills h
  unfold mockAgentResponse
  rw [h]

/-- Witness for C7 (amended): the mixed-case and lower-case prompt
resolve identically. -/
theorem fallback_sees_only_lowered_prompt_witness :
    jsToLower "Obsidian search \x22HELLO\x22" = jsToLower "obsidian search \x22hello\x22"
    ∧ mockAgentResponse "Obsidian search \x22HELLO\x22" [obsSkill] =
        mockAgentResponse "obsidian search \x22hello\x22" [obsSkill] :=
  ⟨by decide,
    fallback_sees_only_lowered_prompt "Obsidian search \x22HELLO\x22"
      "obsidian search \x22hello\x22" [obsSkill] (by decide)⟩

/-- C8 (corrected), counterexample: a value whose leading and trailing
characters are a non-matching quote pair (here `"abc'`) is not stored
unchanged — both quotes are stripped and the field becomes `abc`. -/
theorem unmatched_quotes_still_stripped :
    (parseFrontmatter jpNone "---\nname: \x22abc\x27\n---\nB").map (fun r => r.1.name) =
      .ok "abc"
    ∧ ("abc" : String) ≠ "\x22abc\x27" :=
  ⟨rfl, by decide⟩

/-- C8 (amended): for a frontmatter line assigning a recognized
non-`metadata` key, the stored value is the trimmed value with a leading
quote character stripped if present and a trailing quote character
stripped if present, independently — no matching is required. -/
theorem quote_stripping_is_independent :
    (∀ (jp : String → Option JsonValue) (m : SkillMetadata) (v : String), jsTrim v ≠ "" →
      (processLine jp m ("name:" ++ v)).name = stripQuotes (jsTrim v))
    ∧ ∀ (a b : Char) (mid : List Char),
        stripQuotes (String.mk (a :: (mid ++ [b]))) =
          String.mk ((if isQuote a then [] else [a]) ++ mid ++
            (if isQuote b then [] else [b])) := by
  constructor
  · intro jp m v hv
    show (if ("name" : String) ≠ "" ∧ jsTrim v ≠ "" then
        assignField m "name" (stripQuotes (jsTrim v))
      else m).name = stripQuotes (jsTrim v)
    rw [if_pos ⟨by decide, hv⟩]
    rfl
  · intro a b mid
    by_cases ha : isQuote a <;> by_cases hb : isQuote b <;>
      simp [stripQuotes, stripLeadQuote, ha, hb, List.reverse_append]

/-- Witness for C8 (amended) at the value `"abc'`. -/
theorem quote_stripping_is_independent_witness :
    jsTrim "\x22abc\x27" ≠ ""
    ∧ (processLine jpNone emptyMetadata ("name:" ++ "\x22abc\x27")).name =
        stripQuotes (jsTrim "\x22abc\x27") :=
  ⟨by decide, quote_stripping_is_independent.1 jpNone emptyMetadata "\x22abc\x27" (by decide)⟩

/-- C9 (corrected), counterexample: a line with the unrecognized key
`foo` does not leave the metadata record identical — the record acquires
the dynamic property `foo`, though the recognized fields are unchanged
and parsing is not broken. -/
theorem unrecognized_key_changes_record :
    (parseFrontmatter jpNone "---\nname: n\nfoo: bar\n---\nB").map (fun r => r.1.extra) =
      .ok [("foo", "bar")]
    ∧ (parseFrontmatter jpNone "---\nname: n\n---\nB").map (fun r => r.1.extra) = .ok []
    ∧ (parseFrontmatter jpNone "---\nname: n\nfoo: bar\n---\nB").map (fun r => r.1.name) =
        (parseFrontmatter jpNone "---\nname: n\n---\nB").map (fun r => r.1.name)
    ∧ (Except.ok [("foo", "bar")] : Except String (List (String × String))) ≠ .ok [] :=
  ⟨rfl, rfl, rfl, fun h => List.noConfusion (Except.ok.inj h)⟩

/-- C9 (amended): a frontmatter line assigning an unrecognized key never
breaks parsing and leaves the four declared fields (`name`,
`description`, `homepage`, `metadata`) unchanged, but the key is recorded
as a dynamic property of the metadata object (which nothing downstream
reads). -/
theorem unrecognized_key_preserves_declared_fields :
    ∀ (jp : String → Option JsonValue) (m : SkillMetadata) (line key : String),
      lineAssignKey line = some key →
      key ≠ "name" → key ≠ "description" → key ≠ "homepage" → key ≠ "metadata" →
      (processLine jp m line).name = m.name ∧
      (processLine jp m line).description = m.description ∧
      (processLine jp m line).homepage = m.homepage ∧
      (processLine jp m line).metadata = m.metadata ∧
      key ∈ ((processLine jp m line).extra.map Prod.fst) := by
  intro jp m line key hk h1 h2 h3 h4
  unfold lineAssignKey at hk
  unfold processLine
  rcases hidx : jsIndexOf line ':' with _ | i
  · rw [hidx] at hk
    simp at hk
  · rw [hidx] at hk
    simp only [] at hk ⊢
    split_ifs at hk ⊢ with hpos hcond hmeta
    · injection hk with hkey
      subst hkey
      exact absurd hmeta h4
    · injection hk with hkey
      subst hkey
      unfold assignField
      rw [if_neg h1, if_neg h2, if_neg h3]
      exact ⟨rfl, rfl, rfl, rfl, setProp_key_mem _ _ _⟩

/-- Witness for C9 (amended) at the line `foo: bar`. -/
theorem unrecognized_key_preserves_declared_fields_witness :
    lineAssignKey "foo: bar" = some "foo"
    ∧ ((processLine jpNone emptyMetadata "foo: bar").name = emptyMetadata.name ∧
       (processLine jpNone emptyMetadata "foo: bar").description = emptyMetadata.description ∧
       (processLine jpNone emptyMetadata "foo: bar").homepage = emptyMetadata.homepage ∧
       (processLine jpNone emptyMetadata "foo: bar").metadata = emptyMetadata.metadata ∧
       "foo" ∈ ((processLine jpNone emptyMetadata "foo: bar").extra.map Prod.fst)) :=
  ⟨rfl, unrecognized_key_preserves_declared_fields jpNone emptyMetadata "foo: bar" "foo"
    rfl (by decide) (by decide) (by decide) (by decide)⟩

lemma mockLoop_name_congr (pl : String) {s1 s2 : List Skill}
    (h : List.Forall₂ (fun a b => a.metadata.name = b.metadata.name) s1 s2) :
    mockLoop pl s1 = mockLoop pl s2 := by
  induction h with
  | nil => rfl
  | cons hab htail ih =>
    simp only [mockLoop]
    rw [hab, ih]

lemma defaultResponse_congr {s1 s2 : List Skill}
    (h : List.Forall₂ (fun a b => a.metadata.name = b.metadata.name ∧ a.commands = b.commands)
      s1 s2) :
    defaultResponse s1 = defaultResponse s2 := by
  cases h with
  | nil => rfl
  | cons hab htail =>
    simp only [defaultResponse, List.head?]
    rw [hab.1, hab.2]

/-- C10: the fallback matcher never consults skill descriptions or body
content — catalogs agreeing position-by-position on `metadata.name` and
on the `commands` list yield the identical Resolution for every prompt
(the description-plus-content string the loop computes is never read). -/
theorem fallback_ignores_descriptions :
    ∀ (prompt : String) (s1 s2 : List Skill),
      List.Forall₂
        (fun a b => a.metadata.name = b.metadata.name ∧ a.commands = b.commands) s1 s2 →
      mockAgentResponse prompt s1 = mockAgentResponse prompt s2 := by
  intro prompt s1 s2 h
  unfold mockAgentResponse
  rw [mockLoop_name_congr (jsToLower prompt) (List.Forall₂.imp (fun _ _ hab => hab.1) h),
    defaultResponse_congr h]

/-- Witness for C10: two catalogs differing only in description, body,
homepage, path and dynamic metadata resolve identically. -/
theorem fallback_ignores_descriptions_witness :
    List.Forall₂ (fun a b => a.metadata.name = b.metadata.name ∧ a.commands = b.commands)
      [obsSkill] [obsSkillAlt]
    ∧ mockAgentResponse "Search my vault for \x22notes\x22" [obsSkill] =
        mockAgentResponse "Search my vault for \x22notes\x22" [obsSkillAlt] :=
  ⟨.cons ⟨rfl, rfl⟩ .nil,
    fallback_ignores_descriptions "Search my vault for \x22notes\x22" [obsSkill] [obsSkillAlt]
      (.cons ⟨rfl, rfl⟩ .nil)⟩
